import Mathlib

/-!
Verification of the MintYourAgent token-launch CLI (src/mya.py) against its
natural-language specification.

The development is a shallow embedding: Python byte strings are `List Nat`
(each element a byte below 256), Python arbitrary-precision integers are
`Nat`/`Int`, Python `struct.pack` and `hashlib.sha256` are re-implemented as
executable Lean functions, and the stateful wallet-file operations are given
as explicit state-passing functions over a small filesystem record.  File
permission bits (the `chmod 0o600` calls and the non-fatal permission
tightening on load) are not modelled; no claim under scrutiny concerns them.
-/

set_option maxRecDepth 1000000

/-! ## Byte-level encoding utilities

The source uses `struct.pack('<I', n)` and `struct.pack('<Q', n)` for
little-endian 4- and 8-byte integers, and `int.from_bytes` / `int.to_bytes`
with big-endian order in the base-58 codec.  `leBytes k n` is the k-byte
little-endian encoding (defined for any `n`; `struct.pack` additionally
raises on out-of-range input, and every use below is guarded by an
in-range hypothesis).  `leVal` reads a little-endian byte list back.
-/

def leBytes : Nat → Nat → List Nat
  | 0, _ => []
  | k + 1, n => n % 256 :: leBytes k (n / 256)

def leVal (bs : List Nat) : Nat := bs.foldr (fun b acc => b + 256 * acc) 0

theorem length_leBytes (k n : Nat) : (leBytes k n).length = k := by
  induction k generalizing n with
  | zero => rfl
  | succ k ih => simp [leBytes, ih]

theorem leVal_leBytes (k n : Nat) (h : n < 256 ^ k) : leVal (leBytes k n) = n := by
  induction k generalizing n with
  | zero =>
    simp [Nat.pow_zero] at h
    simp [leBytes, leVal, h]
  | succ k ih =>
    have hdiv : n / 256 < 256 ^ k := by
      rw [Nat.div_lt_iff_lt_mul (by norm_num : 0 < 256)]
      calc n < 256 ^ (k + 1) := h
        _ = 256 ^ k * 256 := by ring
    simp only [leBytes, leVal, List.foldr_cons]
    have : leVal (leBytes k (n / 256)) = n / 256 := ih (n / 256) hdiv
    simp only [leVal] at this
    rw [this]
    omega

/-- Big-endian value of a byte (or digit) list in base `b`, as computed by
Python `int.from_bytes(data, 'big')` and by the base-58 decode loop. -/
def beVal (b : Nat) (ds : List Nat) : Nat := ds.foldl (fun acc d => acc * b + d) 0

theorem beVal_eq_ofDigits (b : Nat) (L : List Nat) :
    beVal b L.reverse = Nat.ofDigits b L := by
  induction L with
  | nil => rfl
  | cons d ds ih =>
    have step : ∀ (a : Nat) (l : List Nat),
        l.foldl (fun acc x => acc * b + x) a = a * b ^ l.length + l.foldl (fun acc x => acc * b + x) 0 := by
      intro a l
      induction l generalizing a with
      | nil => simp
      | cons x xs ihx =>
        simp only [List.foldl_cons, List.length_cons]
        rw [ihx (a * b + x), ihx (0 * b + x)]
        ring
    simp only [beVal, List.reverse_cons, List.foldl_append, List.foldl_cons, List.foldl_nil,
      Nat.ofDigits_cons]
    rw [show (List.foldl (fun acc x => acc * b + x) 0 ds.reverse * b + d)
          = d + b * List.foldl (fun acc x => acc * b + x) 0 ds.reverse by ring]
    simp only [beVal] at ih
    rw [ih]

/-! ## SHA-256

Executable embedding of SHA-256 (as used through `hashlib.sha256` in
`compute_wallet_checksum`).  Words are `Nat` reduced modulo `2^32`, messages
and digests are byte lists.  The implementation is validated below against
published test vectors (`sha256_empty_vector`, `sha256_abc_vector`).
-/

def pow32 : Nat := 4294967296

def rotr32 (n x : Nat) : Nat := (x >>> n) ||| ((x <<< (32 - n)) % pow32)

def bigSigma0 (x : Nat) : Nat := rotr32 2 x ^^^ rotr32 13 x ^^^ rotr32 22 x

def bigSigma1 (x : Nat) : Nat := rotr32 6 x ^^^ rotr32 11 x ^^^ rotr32 25 x

def smallSigma0 (x : Nat) : Nat := rotr32 7 x ^^^ rotr32 18 x ^^^ (x >>> 3)

def smallSigma1 (x : Nat) : Nat := rotr32 17 x ^^^ rotr32 19 x ^^^ (x >>> 10)

def chFn (x y z : Nat) : Nat := (x &&& y) ^^^ ((x ^^^ 4294967295) &&& z)

def majFn (x y z : Nat) : Nat := (x &&& y) ^^^ (x &&& z) ^^^ (y &&& z)

def sha256K : List Nat := [1116352408, 1899447441, 3049323471, 3921009573, 961987163, 1508970993, 2453635748, 2870763221, 3624381080, 310598401, 607225278, 1426881987, 1925078388, 2162078206, 2614888103, 3248222580, 3835390401, 4022224774, 264347078, 604807628, 770255983, 1249150122, 1555081692, 1996064986, 2554220882, 2821834349, 2952996808, 3210313671, 3336571891, 3584528711, 113926993, 338241895, 666307205, 773529912, 1294757372, 1396182291, 1695183700, 1986661051, 2177026350, 2456956037, 2730485921, 2820302411, 3259730800, 3345764771, 3516065817, 3600352804, 4094571909, 275423344, 430227734, 506948616, 659060556, 883997877, 958139571, 1322822218, 1537002063, 1747873779, 1955562222, 2024104815, 2227730452, 2361852424, 2428436474, 2756734187, 3204031479, 3329325298]

def sha256H0 : List Nat := [1779033703, 3144134277, 1013904242, 2773480762, 1359893119, 2600822924, 528734635, 1541459225]

def bytesToWordsBE : List Nat → List Nat
  | b0 :: b1 :: b2 :: b3 :: rest => (((b0 * 256 + b1) * 256 + b2) * 256 + b3) :: bytesToWordsBE rest
  | _ => []

def wordToBytesBE (w : Nat) : List Nat :=
  [(w / 16777216) % 256, (w / 65536) % 256, (w / 256) % 256, w % 256]

def lenToBytesBE64 (n : Nat) : List Nat :=
  [(n >>> 56) % 256, (n >>> 48) % 256, (n >>> 40) % 256, (n >>> 32) % 256,
   (n >>> 24) % 256, (n >>> 16) % 256, (n >>> 8) % 256, n % 256]

def extendSchedule : Nat → List Nat → List Nat
  | 0, w => w
  | n + 1, w =>
    let L := w.length
    let nw := (w.getD (L - 16) 0 + smallSigma0 (w.getD (L - 15) 0) +
               w.getD (L - 7) 0 + smallSigma1 (w.getD (L - 2) 0)) % pow32
    extendSchedule n (w ++ [nw])

def roundFn (st : List Nat) (k : Nat) (w : Nat) : List Nat :=
  match st with
  | [a, b, c, d, e, f, g, h] =>
    let t1 := (h + bigSigma1 e + chFn e f g + k + w) % pow32
    let t2 := (bigSigma0 a + majFn a b c) % pow32
    [(t1 + t2) % pow32, a, b, c, (d + t1) % pow32, e, f, g]
  | _ => st

def compressBlock (h0 : List Nat) (block : List Nat) : List Nat :=
  let w := extendSchedule 48 (bytesToWordsBE block)
  let st := (List.zip sha256K w).foldl (fun st kw => roundFn st kw.1 kw.2) h0
  (List.zip h0 st).map (fun p => (p.1 + p.2) % pow32)

def sha256pad (msg : List Nat) : List Nat :=
  let L := msg.length
  let zeros := (64 - ((L + 9) % 64)) % 64
  msg ++ [128] ++ List.replicate zeros 0 ++ lenToBytesBE64 (8 * L)

def splitBlocksAux : Nat → List Nat → List (List Nat)
  | 0, _ => []
  | _ + 1, [] => []
  | fuel + 1, l@(_ :: _) => l.take 64 :: splitBlocksAux fuel (l.drop 64)

def splitBlocks (l : List Nat) : List (List Nat) := splitBlocksAux l.length l

def sha256 (msg : List Nat) : List Nat :=
  (((splitBlocks (sha256pad msg)).foldl compressBlock sha256H0).map wordToBytesBE).flatten

/-- Lowercase hex rendering of a byte list, as Python `hexdigest()`. -/
def hexDigest (bytes : List Nat) : String :=
  String.mk ((bytes.map (fun b => [Nat.digitChar (b / 16), Nat.digitChar (b % 16)])).flatten)

/-- SHA-256 of the empty message, against the published test vector. -/
theorem sha256_empty_vector :
    hexDigest (sha256 []) = "e3b0c44298fc1c149afbf4c8996fb92427ae41e4649b934ca495991b7852b855" := by
  decide

/-- SHA-256 of the three-byte message "abc", against the published test vector. -/
theorem sha256_abc_vector :
    hexDigest (sha256 [97, 98, 99]) =
      "ba7816bf8f01cfea414140de5dae2223b00361a396177a9cb410ff61f20015ad" := by
  decide

/-- Embeds `compute_wallet_checksum` (mya.py:1167): the first 8 hex characters
of the SHA-256 of the data; since each digest byte renders as two hex
characters, this equals the hex rendering of the first 4 digest bytes. -/
def compute_wallet_checksum (data : List Nat) : String :=
  hexDigest ((sha256 data).take 4)

/-! ## BondingCurveMath

`calculate_sol_for_tokens` (mya.py:447) quotes the SOL out for a token sell;
`calculate_tokens_for_sol` (mya.py:577) quotes the tokens out for a SOL buy
with the hardcoded pump.fun initial reserves.  Python integers are arbitrary
precision; amounts are `Nat` (the claims restrict attention to u64 inputs)
and results are `Int` exactly where the Python code can form a difference
before any clamping.
-/

def calculate_sol_for_tokens (token_amount virtual_token_reserves virtual_sol_reserves : Nat) : Int :=
  if token_amount ≤ 0 then 0
  else
    let k := virtual_sol_reserves * virtual_token_reserves
    let new_virtual_token := virtual_token_reserves + token_amount
    let new_virtual_sol := k / new_virtual_token
    let sol_out : Int := (virtual_sol_reserves : Int) - (new_virtual_sol : Int)
    max 0 sol_out

/-- The spec's reference definition of `quoteSolOutForTokensIn` (spec §4.2),
written from the spec's words for comparison with the source function:
k = virtualSolReserves × virtualTokenReserves, newVirtualToken =
virtualTokenReserves + tokenAmountIn, newVirtualSol = floor(k / newVirtualToken),
result = max(0, virtualSolReserves − newVirtualSol). -/
def quoteSolOutForTokensIn (tokenAmountIn virtualTokenReserves virtualSolReserves : Nat) : Int :=
  let k := virtualSolReserves * virtualTokenReserves
  let newVirtualToken := virtualTokenReserves + tokenAmountIn
  let newVirtualSol := k / newVirtualToken
  max 0 ((virtualSolReserves : Int) - (newVirtualSol : Int))

def calculate_tokens_for_sol (sol_lamports : Nat) : Int :=
  let virtual_token_reserves : Nat := 1073000000000000
  let virtual_sol_reserves : Nat := 30000000000
  let k := virtual_token_reserves * virtual_sol_reserves
  let new_sol_reserves := virtual_sol_reserves + sol_lamports
  let new_token_reserves := k / new_sol_reserves
  (virtual_token_reserves : Int) - (new_token_reserves : Int)

/-- C4: for all u64 inputs with virtualTokenReserves > 0, the sell quote
`calculate_sol_for_tokens` agrees with the spec's reference definition
`quoteSolOutForTokensIn` (k widened, newVirtualSol = floor(k / newVirtualToken),
result = max(0, virtualSolReserves − newVirtualSol)). -/
theorem claim_C4_sell_quote_matches_reference
    (tokenAmountIn virtualTokenReserves virtualSolReserves : Nat)
    (hvT : 0 < virtualTokenReserves) :
    calculate_sol_for_tokens tokenAmountIn virtualTokenReserves virtualSolReserves =
      quoteSolOutForTokensIn tokenAmountIn virtualTokenReserves virtualSolReserves := by
  rcases Nat.eq_zero_or_pos tokenAmountIn with h0 | hpos
  · subst h0
    simp only [calculate_sol_for_tokens, quoteSolOutForTokensIn, if_pos (Nat.le_refl 0),
      Nat.add_zero]
    rw [Nat.mul_div_cancel _ hvT]
    simp
  · simp only [calculate_sol_for_tokens, quoteSolOutForTokensIn,
      if_neg (by omega : ¬ tokenAmountIn ≤ 0)]

/-- Witness for C4 at concrete inputs. -/
theorem claim_C4_sell_quote_matches_reference_witness :
    0 < 1073000000000000 ∧
    calculate_sol_for_tokens 5000 1073000000000000 30000000000 =
      quoteSolOutForTokensIn 5000 1073000000000000 30000000000 :=
  ⟨by norm_num,
   claim_C4_sell_quote_matches_reference 5000 1073000000000000 30000000000 (by norm_num)⟩

/-- C5: with fixed reserves (virtualTokenReserves > 0), the sell quote is zero
at zero input, monotonically non-decreasing in the token input, and never
negative. -/
theorem claim_C5_sell_quote_invariants (virtualTokenReserves virtualSolReserves : Nat)
    (hvT : 0 < virtualTokenReserves) :
    calculate_sol_for_tokens 0 virtualTokenReserves virtualSolReserves = 0 ∧
    (∀ a b : Nat, a ≤ b →
      calculate_sol_for_tokens a virtualTokenReserves virtualSolReserves ≤
        calculate_sol_for_tokens b virtualTokenReserves virtualSolReserves) ∧
    (∀ a : Nat, 0 ≤ calculate_sol_for_tokens a virtualTokenReserves virtualSolReserves) := by
  have hzero : calculate_sol_for_tokens 0 virtualTokenReserves virtualSolReserves = 0 := by
    simp [calculate_sol_for_tokens]
  have hnonneg : ∀ a : Nat,
      0 ≤ calculate_sol_for_tokens a virtualTokenReserves virtualSolReserves := by
    intro a
    unfold calculate_sol_for_tokens
    split
    · exact le_refl 0
    · exact le_max_left 0 _
  refine ⟨hzero, ?_, hnonneg⟩
  intro a b hab
  rcases Nat.eq_zero_or_pos a with ha0 | hapos
  · subst ha0
    rw [hzero]
    exact hnonneg b
  · have hbpos : 0 < b := lt_of_lt_of_le hapos hab
    simp only [calculate_sol_for_tokens, if_neg (by omega : ¬ a ≤ 0),
      if_neg (by omega : ¬ b ≤ 0)]
    apply max_le_max (le_refl (0 : Int))
    apply sub_le_sub_left
    have hdiv : virtualSolReserves * virtualTokenReserves / (virtualTokenReserves + b) ≤
        virtualSolReserves * virtualTokenReserves / (virtualTokenReserves + a) :=
      Nat.div_le_div_left (by omega) (by omega)
    exact_mod_cast hdiv

/-- Witness for C5 at concrete reserves. -/
theorem claim_C5_sell_quote_invariants_witness :
    0 < 3 ∧
    (calculate_sol_for_tokens 0 3 7 = 0 ∧
     (∀ a b : Nat, a ≤ b →
       calculate_sol_for_tokens a 3 7 ≤ calculate_sol_for_tokens b 3 7) ∧
     (∀ a : Nat, 0 ≤ calculate_sol_for_tokens a 3 7)) :=
  ⟨by norm_num, claim_C5_sell_quote_invariants 3 7 (by norm_num)⟩

/-- C2 counterexample: at solAmountIn = 1,000,000,000 lamports the buy quote
is not the claimed 34,612,903,225,806; floor(1073000000000000 × 30000000000 /
31000000000) = 1,038,387,096,774,193, so the code returns 1,073,000,000,000,000
− 1,038,387,096,774,193 = 34,612,903,225,807. -/
theorem claim_C2_counterexample :
    calculate_tokens_for_sol 1000000000 ≠ 34612903225806 := by
  decide

/-- C2 (amended): with the hardcoded initial reserves, the buy quote at
solAmountIn = 1,000,000,000 lamports equals 1,073,000,000,000,000 −
floor(1,073,000,000,000,000 × 30,000,000,000 / 31,000,000,000), which is
exactly 34,612,903,225,807 (not ...806 as the claim's evaluated constant
states). -/
theorem claim_C2_buy_quote_concrete :
    calculate_tokens_for_sol 1000000000 =
      (1073000000000000 : Int) - (1073000000000000 * 30000000000) / 31000000000 ∧
    calculate_tokens_for_sol 1000000000 = 34612903225807 := by
  constructor <;> decide

/-! ## KeyCustodyStore: wallet persistence model

The wallet file (written by `save_wallet`, mya.py:1215, read by `load_wallet`,
mya.py:1171) is a JSON object {bytes, checksum, created, version}; a legacy
file is a bare JSON array of bytes.  `WalletFileContent.corrupt` stands for
any file whose content is not a decodable record with a byte list (JSON
decode errors and structurally alien JSON alike: both abort before any use
of the data).  The filesystem model tracks the canonical wallet file, the
legacy skill-directory wallet, the backup directory, and whether a competing
invocation currently holds the sibling advisory lock.  `from_bytes_ok` is
the external `solders.Keypair.from_bytes` validator, kept as a parameter;
on success `load_wallet` is modelled as returning the keypair's 64 bytes.
Temp-file write plus atomic rename is modelled as one content replacement;
permission bits are not modelled.
-/

inductive WalletFileContent where
  | record (bytes : List Nat) (checksum created version : String)
  | legacy (bytes : List Nat)
  | corrupt
deriving DecidableEq

structure WalletFS where
  wallet : Option WalletFileContent
  legacySkillWallet : Option WalletFileContent
  backups : List (String × WalletFileContent)
  lockContended : Bool
  hasFcntl : Bool
deriving DecidableEq

def VERSION : String := "3.5.0"

/-- Embeds `acquire_file_lock` (mya.py:1050): returns None when `fcntl` is
unavailable, and None when the non-blocking exclusive flock fails because a
competing invocation holds the lock; otherwise a file descriptor (modelled
as `some ()`). -/
def acquire_file_lock (fs : WalletFS) : Option Unit :=
  if fs.hasFcntl then (if fs.lockContended then none else some ()) else none

/-- Embeds `save_wallet` (mya.py:1215).  The lock acquisition result is bound
but — exactly as in the source — never inspected before the write. -/
def save_wallet (now : String) (keypair_bytes : List Nat) (fs : WalletFS) : WalletFS :=
  let lock_fd := acquire_file_lock fs
  let wallet_data := WalletFileContent.record keypair_bytes
    (compute_wallet_checksum keypair_bytes) now VERSION
  let _unused := lock_fd
  { fs with wallet := some wallet_data }

inductive LoadOutcome where
  | ok (keypairBytes : List Nat)
  | noWallet
  | securityError
  | generalError
deriving DecidableEq

/-- Embeds `load_wallet` (mya.py:1171).  The one-time migration of a legacy
skill-directory wallet is result-equivalent to reading that file directly,
so the on-disk move is not tracked.  A stored non-empty checksum that differs
from the recomputed one exits with SECURITY_ERROR; a keypair-parse failure
afterwards exits with GENERAL_ERROR. -/
def load_wallet (from_bytes_ok : List Nat → Bool) (fs : WalletFS) : LoadOutcome :=
  let content? := match fs.wallet with
    | some c => some c
    | none => fs.legacySkillWallet
  match content? with
  | none => LoadOutcome.noWallet
  | some WalletFileContent.corrupt => LoadOutcome.generalError
  | some (WalletFileContent.record bytes checksum _ _) =>
    if checksum ≠ "" ∧ checksum ≠ compute_wallet_checksum bytes then
      LoadOutcome.securityError
    else if from_bytes_ok bytes then LoadOutcome.ok bytes
    else LoadOutcome.generalError
  | some (WalletFileContent.legacy bytes) =>
    if from_bytes_ok bytes then LoadOutcome.ok bytes
    else LoadOutcome.generalError

/-- Alter one byte of the persisted secret key bytes of the canonical wallet
record, leaving the stored checksum untouched (the tampering scenario of the
spec's KeyCustodyStore round-trip property). -/
def tamperSecretByte (i v : Nat) (fs : WalletFS) : WalletFS :=
  { fs with wallet := fs.wallet.map (fun c => match c with
      | WalletFileContent.record bytes ck cr ver => WalletFileContent.record (bytes.set i v) ck cr ver
      | other => other) }

/-- A deliberately permissive model of `solders.Keypair.from_bytes` accepting
any 64-byte string, used to exhibit what `load_wallet` does with tampered
bytes that pass the checksum comparison. -/
def fromBytesLen64 : List Nat → Bool := fun bs => bs.length == 64

theorem roundFn_length (st : List Nat) (k w : Nat) : (roundFn st k w).length = st.length := by
  unfold roundFn
  split
  · simp
  · rfl

theorem foldl_roundFn_length (l : List (Nat × Nat)) (st : List Nat) :
    (l.foldl (fun st kw => roundFn st kw.1 kw.2) st).length = st.length := by
  induction l generalizing st with
  | nil => rfl
  | cons kw t ih => rw [List.foldl_cons, ih, roundFn_length]

theorem compressBlock_length (h0 block : List Nat) (h : h0.length = 8) :
    (compressBlock h0 block).length = 8 := by
  unfold compressBlock
  simp only [List.length_map, List.length_zip, foldl_roundFn_length, h]
  omega

theorem foldl_compressBlock_length (blocks : List (List Nat)) (h0 : List Nat)
    (h : h0.length = 8) : (blocks.foldl compressBlock h0).length = 8 := by
  induction blocks generalizing h0 with
  | nil => exact h
  | cons b t ih => exact ih _ (compressBlock_length h0 b h)

theorem flatten_map_wordToBytesBE_length (l : List Nat) :
    ((l.map wordToBytesBE).flatten).length = 4 * l.length := by
  induction l with
  | nil => rfl
  | cons x t ih =>
    simp only [List.map_cons, List.flatten_cons, List.length_append, ih, List.length_cons,
      wordToBytesBE, List.length_cons]
    simp
    omega

theorem sha256_length (msg : List Nat) : (sha256 msg).length = 32 := by
  unfold sha256
  rw [flatten_map_wordToBytesBE_length, foldl_compressBlock_length _ _ (by rfl)]

theorem hexList_length (bs : List Nat) :
    ((bs.map (fun b => [Nat.digitChar (b / 16), Nat.digitChar (b % 16)])).flatten).length
      = 2 * bs.length := by
  induction bs with
  | nil => rfl
  | cons b t ih =>
    simp only [List.map_cons, List.flatten_cons, List.length_append, ih, List.length_cons]
    simp
    omega

theorem compute_wallet_checksum_length (data : List Nat) :
    (compute_wallet_checksum data).data.length = 8 := by
  unfold compute_wallet_checksum hexDigest
  show ((((sha256 data).take 4).map _).flatten).length = 8
  rw [hexList_length, List.length_take, sha256_length]
  rfl

theorem compute_wallet_checksum_ne_empty (data : List Nat) :
    compute_wallet_checksum data ≠ "" := by
  intro h
  have h8 := compute_wallet_checksum_length data
  rw [h] at h8
  simp at h8

def emptyWalletFS : WalletFS :=
  { wallet := none, legacySkillWallet := none, backups := [],
    lockContended := false, hasFcntl := true }

/-- C1 (amended): for every 64-byte keypair x, load after save returns exactly
x (when the external keypair parser accepts x); and a single-byte alteration
of the persisted secret key bytes whose recomputed truncated checksum differs
from the stored one makes load_wallet exit with SECURITY_ERROR.  (The
unconditional form of the claim is refuted by
claim_C1_silent_tamper_counterexample: the checksum keeps only 8 hex
characters of the SHA-256, and an alteration preserving them escapes
detection.) -/
theorem claim_C1_wallet_roundtrip_and_tamper_detection
    (from_bytes_ok : List Nat → Bool) (x : List Nat) (now : String) (fs : WalletFS)
    (i v : Nat)
    (hlen : x.length = 64) (hf : from_bytes_ok x = true)
    (hck : compute_wallet_checksum (x.set i v) ≠ compute_wallet_checksum x) :
    load_wallet from_bytes_ok (save_wallet now x fs) = LoadOutcome.ok x ∧
    load_wallet from_bytes_ok (tamperSecretByte i v (save_wallet now x fs)) =
      LoadOutcome.securityError := by
  constructor
  · simp [save_wallet, load_wallet, hf]
  · simp only [save_wallet, tamperSecretByte, load_wallet, Option.map_some']
    rw [if_pos ⟨compute_wallet_checksum_ne_empty x, Ne.symm hck⟩]

/-- Witness for C1 at a concrete 64-byte input and a concrete detected
single-byte alteration (byte 0 of 0,1,...,63 changed to 255, which moves the
truncated checksum from "fdeab9ac" to "47080744"). -/
theorem claim_C1_wallet_roundtrip_and_tamper_detection_witness :
    (List.range 64).length = 64 ∧
    fromBytesLen64 (List.range 64) = true ∧
    compute_wallet_checksum ((List.range 64).set 0 255) ≠
      compute_wallet_checksum (List.range 64) ∧
    (load_wallet fromBytesLen64 (save_wallet "t" (List.range 64) emptyWalletFS) =
        LoadOutcome.ok (List.range 64) ∧
     load_wallet fromBytesLen64
        (tamperSecretByte 0 255 (save_wallet "t" (List.range 64) emptyWalletFS)) =
        LoadOutcome.securityError) :=
  ⟨by decide, by decide, by decide,
   claim_C1_wallet_roundtrip_and_tamper_detection fromBytesLen64 (List.range 64) "t"
     emptyWalletFS 0 255 (by decide) (by decide) (by decide)⟩

/-- A genuine ed25519 keypair: bytes 0–31 are the secret seed, bytes 32–63
the matching public key (as serialized by `bytes(solders.Keypair)`). -/
def exhibitKeypair : List Nat :=
  [94, 225, 224, 95, 56, 112, 254, 149, 58, 229, 21, 12, 160, 50, 96, 206, 145, 199, 142, 13, 69, 100, 186, 34, 2, 89, 138, 68, 161, 18, 74, 57, 212, 211, 27, 226, 140, 211, 252, 38, 37, 232, 164, 85, 54, 103, 97, 39, 98, 153, 36, 219, 101, 202, 169, 123, 85, 15, 143, 41, 198, 181, 114, 183]

/-- exhibitKeypair with its byte at index 41 altered from 232 to 211. -/
def exhibitTampered : List Nat := exhibitKeypair.set 41 211

/-- C1 counterexample: altering byte 41 of this persisted keypair from 232 to
211 leaves the first 8 hex characters of the SHA-256 checksum unchanged
("736dd96f"), so load_wallet does not exit with SECURITY_ERROR: the checksum
comparison passes and the tampered bytes are handed to the keypair parser
(shown here with a length-only parser model, under which the tampered key is
returned silently; the real parser rejects the bytes with the
GENERAL_ERROR exit, which is still not SECURITY_ERROR). -/
theorem claim_C1_silent_tamper_counterexample :
    compute_wallet_checksum exhibitTampered = compute_wallet_checksum exhibitKeypair ∧
    exhibitTampered ≠ exhibitKeypair ∧
    load_wallet fromBytesLen64
        (tamperSecretByte 41 211 (save_wallet "t" exhibitKeypair emptyWalletFS)) =
      LoadOutcome.ok exhibitTampered := by
  refine ⟨by decide, by decide, ?_⟩
  decide

def contendedWalletFS : WalletFS :=
  { wallet := none, legacySkillWallet := none, backups := [],
    lockContended := true, hasFcntl := true }

/-- C3 evaluation at the failing input: when a competing invocation already
holds the advisory lock, `acquire_file_lock` returns None, yet `save_wallet`
never inspects that result and completes the write anyway — the contending
saver does not abort. -/
theorem claim_C3_contending_save_writes_anyway :
    acquire_file_lock contendedWalletFS = none ∧
    (save_wallet "2026-01-01T00:00:00Z" (List.range 64) contendedWalletFS).wallet =
      some (WalletFileContent.record (List.range 64) "fdeab9ac"
        "2026-01-01T00:00:00Z" "3.5.0") := by
  exact ⟨rfl, by decide⟩

/-! ## Backup and restore

`create_backup` (mya.py:1281) copies the canonical wallet file verbatim into
the backup area (raising FileNotFoundError when there is no wallet);
`restore_backup` (mya.py:1310) decodes and keypair-validates the backup
before touching the canonical file, backs the current wallet up under the
name "pre_restore", then replaces the canonical file with the backup's
content.  Backups are modelled as an append list of (name, content) pairs
(the source writes name-derived files in a directory; a name collision
overwrites, which no claim concerns). -/

inductive RestoreError where
  | backupNotFound
  | invalidBackup
  | invalidKeypair
deriving DecidableEq

def create_backup (name : String) (fs : WalletFS) : WalletFS × Bool :=
  match fs.wallet with
  | some w => ({ fs with backups := fs.backups ++ [(name, w)] }, true)
  | none => (fs, false)

/-- The byte list persisted in a backup file, as extracted by
`bytes(data.get("bytes", data) if isinstance(data, dict) else data)`;
none when the content does not decode to a record with a byte list. -/
def walletContentBytes : WalletFileContent → Option (List Nat)
  | WalletFileContent.record bs _ _ _ => some bs
  | WalletFileContent.legacy bs => some bs
  | WalletFileContent.corrupt => none

def restore_backup (from_bytes_ok : List Nat → Bool) (backup : Option WalletFileContent)
    (fs : WalletFS) : WalletFS × Option RestoreError :=
  match backup with
  | none => (fs, some RestoreError.backupNotFound)
  | some content =>
    match walletContentBytes content with
    | none => (fs, some RestoreError.invalidBackup)
    | some bs =>
      if from_bytes_ok bs then
        let fs1 := if fs.wallet.isSome then (create_backup "pre_restore" fs).1 else fs
        ({ fs1 with wallet := some content }, none)
      else (fs, some RestoreError.invalidKeypair)

/-- Whether the backup content passes restore_backup's validation. -/
def backupValid (from_bytes_ok : List Nat → Bool) (c : WalletFileContent) : Bool :=
  match walletContentBytes c with
  | some bs => from_bytes_ok bs
  | none => false

/-- The error restore_backup reports for an invalid backup content. -/
def restoreFailure (from_bytes_ok : List Nat → Bool) (c : WalletFileContent) :
    Option RestoreError :=
  match walletContentBytes c with
  | none => some RestoreError.invalidBackup
  | some bs => if from_bytes_ok bs then none else some RestoreError.invalidKeypair

/-- C9: with a canonical wallet file present, restore_backup validates the
backup before any write: an invalid backup produces an error with the whole
filesystem state (in particular the canonical wallet file) unchanged, and a
valid backup first appends a "pre_restore" copy of the current wallet to the
backup area and then replaces the canonical file with the backup's content. -/
theorem claim_C9_restore_validates_then_backs_up
    (from_bytes_ok : List Nat → Bool) (backup : WalletFileContent) (fs : WalletFS)
    (w : WalletFileContent) (hw : fs.wallet = some w) :
    restore_backup from_bytes_ok (some backup) fs =
      if backupValid from_bytes_ok backup then
        ({ fs with wallet := some backup,
                   backups := fs.backups ++ [("pre_restore", w)] }, none)
      else (fs, restoreFailure from_bytes_ok backup) := by
  unfold restore_backup backupValid restoreFailure
  cases hbs : walletContentBytes backup with
  | none => simp [hbs]
  | some bs =>
    cases hok : from_bytes_ok bs with
    | false => simp [hbs, hok]
    | true => simp [hbs, hok, create_backup, hw]

/-- Witness for C9: an invalid (corrupt) backup leaves a concrete filesystem
untouched and reports an error. -/
theorem claim_C9_restore_validates_then_backs_up_witness :
    (save_wallet "t" (List.range 64) emptyWalletFS).wallet =
      some (WalletFileContent.record (List.range 64)
        (compute_wallet_checksum (List.range 64)) "t" VERSION) ∧
    restore_backup fromBytesLen64 (some WalletFileContent.corrupt)
        (save_wallet "t" (List.range 64) emptyWalletFS) =
      if backupValid fromBytesLen64 WalletFileContent.corrupt then
        ({ save_wallet "t" (List.range 64) emptyWalletFS with
             wallet := some WalletFileContent.corrupt,
             backups := (save_wallet "t" (List.range 64) emptyWalletFS).backups ++
               [("pre_restore", WalletFileContent.record (List.range 64)
                  (compute_wallet_checksum (List.range 64)) "t" VERSION)] }, none)
      else (save_wallet "t" (List.range 64) emptyWalletFS,
            restoreFailure fromBytesLen64 WalletFileContent.corrupt) :=
  ⟨rfl, claim_C9_restore_validates_then_backs_up fromBytesLen64 WalletFileContent.corrupt
     (save_wallet "t" (List.range 64) emptyWalletFS)
     (WalletFileContent.record (List.range 64)
       (compute_wallet_checksum (List.range 64)) "t" VERSION) rfl⟩

/-! ## InstructionEncoder

Addresses are 32-byte lists.  The program-id constants below are the exact
byte values of the base-58 strings hardcoded in mya.py:192-205 (and the
all-zero system program id).  `Pubkey.find_program_address` performs an
ed25519 off-curve search that is external to this program (solders); it is
kept as a parameter `fpa` taking the seed list and the program id, exactly
as the derive functions of mya.py:210-256 pass them (the bump, discarded by
every caller in the source, is omitted).  Python `str` arguments (name,
symbol, uri) are modelled by their UTF-8 byte sequences, which is the form
in which `encode_string` consumes them after `s.encode('utf-8')`.
-/

abbrev Pubkey := List Nat

abbrev Fpa := List (List Nat) → Pubkey → Pubkey

def SYSTEM_PROGRAM_ID : Pubkey := List.replicate 32 0

def PUMP_PROGRAM_ID : Pubkey := [1, 86, 224, 246, 147, 102, 90, 207, 68, 219, 21, 104, 191, 23, 91, 170, 81, 137, 203, 151, 245, 210, 255, 59, 101, 93, 43, 182, 253, 109, 24, 176]

def PUMP_GLOBAL : Pubkey := [58, 134, 94, 105, 238, 15, 84, 128, 202, 188, 246, 99, 87, 228, 220, 47, 24, 213, 141, 69, 193, 234, 116, 137, 251, 55, 35, 217, 121, 60, 114, 166]

def PUMP_FEE_RECIPIENT : Pubkey := [173, 17, 230, 164, 252, 41, 68, 164, 250, 130, 81, 190, 248, 21, 66, 110, 27, 251, 40, 198, 182, 100, 102, 119, 96, 124, 106, 217, 245, 102, 166, 70]

def SOUL_TREASURY : Pubkey := [61, 251, 29, 20, 243, 58, 227, 36, 17, 120, 64, 76, 30, 240, 163, 177, 83, 13, 109, 134, 181, 202, 136, 198, 197, 226, 201, 4, 196, 31, 59, 204]

def SOUL_PLATFORM_FEE : Nat := 10000000

def PUMP_EVENT_AUTHORITY : Pubkey := [172, 241, 54, 235, 1, 252, 28, 78, 136, 61, 35, 200, 181, 132, 74, 181, 154, 55, 246, 106, 221, 87, 197, 233, 172, 59, 83, 224, 89, 211, 92, 100]

def PUMP_MINT_AUTHORITY : Pubkey := [6, 197, 193, 206, 99, 141, 37, 103, 210, 100, 104, 176, 94, 185, 81, 209, 162, 141, 204, 110, 18, 52, 130, 181, 198, 117, 20, 151, 112, 230, 43, 242]

def TOKEN_PROGRAM_ID : Pubkey := [6, 221, 246, 225, 215, 101, 161, 147, 217, 203, 225, 70, 206, 235, 121, 172, 28, 180, 133, 237, 95, 91, 55, 145, 58, 140, 245, 133, 126, 255, 0, 169]

def ASSOCIATED_TOKEN_PROGRAM_ID : Pubkey := [140, 151, 37, 143, 78, 36, 137, 241, 187, 61, 16, 41, 20, 142, 13, 131, 11, 90, 19, 153, 218, 255, 16, 132, 4, 142, 123, 216, 219, 233, 248, 89]

def RENT_PROGRAM_ID : Pubkey := [6, 167, 213, 23, 25, 44, 92, 81, 33, 140, 201, 76, 61, 74, 241, 127, 88, 218, 238, 8, 155, 161, 253, 68, 227, 219, 217, 138, 0, 0, 0, 0]

def MPL_TOKEN_METADATA_PROGRAM_ID : Pubkey := [11, 112, 101, 177, 227, 209, 124, 69, 56, 157, 82, 127, 107, 4, 195, 205, 88, 184, 108, 115, 26, 160, 253, 181, 73, 182, 209, 188, 3, 248, 41, 70]

def FEE_PROGRAM_ID : Pubkey := [12, 53, 255, 169, 5, 90, 142, 86, 141, 168, 247, 188, 7, 86, 21, 39, 76, 241, 201, 44, 164, 31, 64, 0, 156, 81, 106, 164, 20, 194, 124, 112]

structure AccountMeta where
  pubkey : Pubkey
  is_signer : Bool
  is_writable : Bool
deriving DecidableEq

structure Instruction where
  program_id : Pubkey
  data : List Nat
  accounts : List AccountMeta
deriving DecidableEq

def seedBondingCurve : List Nat := [98, 111, 110, 100, 105, 110, 103, 45, 99, 117, 114, 118, 101]

def seedMetadata : List Nat := [109, 101, 116, 97, 100, 97, 116, 97]

def seedCreatorVault : List Nat := [99, 114, 101, 97, 116, 111, 114, 45, 118, 97, 117, 108, 116]

def seedGlobalVolumeAccumulator : List Nat := [103, 108, 111, 98, 97, 108, 95, 118, 111, 108, 117, 109, 101, 95, 97, 99, 99, 117, 109, 117, 108, 97, 116, 111, 114]

def seedUserVolumeAccumulator : List Nat := [117, 115, 101, 114, 95, 118, 111, 108, 117, 109, 101, 95, 97, 99, 99, 117, 109, 117, 108, 97, 116, 111, 114]

def seedFeeConfig : List Nat := [102, 101, 101, 95, 99, 111, 110, 102, 105, 103]

def derive_bonding_curve (fpa : Fpa) (mint : Pubkey) : Pubkey :=
  fpa [seedBondingCurve, mint] PUMP_PROGRAM_ID

def derive_associated_bonding_curve (fpa : Fpa) (bonding_curve mint : Pubkey) : Pubkey :=
  fpa [bonding_curve, TOKEN_PROGRAM_ID, mint] ASSOCIATED_TOKEN_PROGRAM_ID

def derive_metadata (fpa : Fpa) (mint : Pubkey) : Pubkey :=
  fpa [seedMetadata, MPL_TOKEN_METADATA_PROGRAM_ID, mint] MPL_TOKEN_METADATA_PROGRAM_ID

def derive_user_ata (fpa : Fpa) (user mint : Pubkey) : Pubkey :=
  fpa [user, TOKEN_PROGRAM_ID, mint] ASSOCIATED_TOKEN_PROGRAM_ID

def derive_creator_vault (fpa : Fpa) (creator : Pubkey) : Pubkey :=
  fpa [seedCreatorVault, creator] PUMP_PROGRAM_ID

def derive_global_volume_accumulator (fpa : Fpa) : Pubkey :=
  fpa [seedGlobalVolumeAccumulator] PUMP_PROGRAM_ID

def derive_user_volume_accumulator (fpa : Fpa) (user : Pubkey) : Pubkey :=
  fpa [seedUserVolumeAccumulator, user] PUMP_PROGRAM_ID

def derive_fee_config (fpa : Fpa) : Pubkey :=
  fpa [seedFeeConfig, PUMP_PROGRAM_ID] FEE_PROGRAM_ID

/-- Embeds `encode_string` (mya.py:258): a 4-byte little-endian length prefix
followed by the UTF-8 bytes; `s` is the UTF-8 byte sequence of the Python
string (`struct.pack` raises for a length of 2^32 or more, so uses below are
guarded by that bound). -/
def encode_string (s : List Nat) : List Nat := leBytes 4 s.length ++ s

/-- Embeds `build_create_ata_instruction` (mya.py:263). -/
def build_create_ata_instruction (payer ata owner mint : Pubkey) : Instruction :=
  { program_id := ASSOCIATED_TOKEN_PROGRAM_ID,
    data := [],
    accounts := [
      { pubkey := payer, is_signer := true, is_writable := true },
      { pubkey := ata, is_signer := false, is_writable := true },
      { pubkey := owner, is_signer := false, is_writable := false },
      { pubkey := mint, is_signer := false, is_writable := false },
      { pubkey := SYSTEM_PROGRAM_ID, is_signer := false, is_writable := false },
      { pubkey := TOKEN_PROGRAM_ID, is_signer := false, is_writable := false }] }

/-- Embeds `build_transfer_instruction` (mya.py:278): system-program transfer,
instruction index 2 as a little-endian u32 followed by the lamports u64. -/
def build_transfer_instruction (from_pubkey to_pubkey : Pubkey) (lamports : Nat) : Instruction :=
  { program_id := SYSTEM_PROGRAM_ID,
    data := leBytes 4 2 ++ leBytes 8 lamports,
    accounts := [
      { pubkey := from_pubkey, is_signer := true, is_writable := true },
      { pubkey := to_pubkey, is_signer := false, is_writable := true }] }

/-- Embeds `build_create_instruction` (mya.py:292). -/
def build_create_instruction (fpa : Fpa) (user mint : Pubkey)
    (name symbol uri : List Nat) : Instruction :=
  let bonding_curve := derive_bonding_curve fpa mint
  let associated_bonding_curve := derive_associated_bonding_curve fpa bonding_curve mint
  let metadata := derive_metadata fpa mint
  let discriminator : List Nat := [24, 30, 200, 40, 5, 28, 7, 119]
  { program_id := PUMP_PROGRAM_ID,
    data := discriminator ++ encode_string name ++ encode_string symbol ++
      encode_string uri ++ user,
    accounts := [
      { pubkey := mint, is_signer := true, is_writable := true },
      { pubkey := PUMP_MINT_AUTHORITY, is_signer := false, is_writable := false },
      { pubkey := bonding_curve, is_signer := false, is_writable := true },
      { pubkey := associated_bonding_curve, is_signer := false, is_writable := true },
      { pubkey := PUMP_GLOBAL, is_signer := false, is_writable := false },
      { pubkey := MPL_TOKEN_METADATA_PROGRAM_ID, is_signer := false, is_writable := false },
      { pubkey := metadata, is_signer := false, is_writable := true },
      { pubkey := user, is_signer := true, is_writable := true },
      { pubkey := SYSTEM_PROGRAM_ID, is_signer := false, is_writable := false },
      { pubkey := TOKEN_PROGRAM_ID, is_signer := false, is_writable := false },
      { pubkey := ASSOCIATED_TOKEN_PROGRAM_ID, is_signer := false, is_writable := false },
      { pubkey := RENT_PROGRAM_ID, is_signer := false, is_writable := false },
      { pubkey := PUMP_EVENT_AUTHORITY, is_signer := false, is_writable := false },
      { pubkey := PUMP_PROGRAM_ID, is_signer := false, is_writable := false }] }

/-- Embeds `build_buy_instruction` (mya.py:324): discriminator, amount u64,
max_sol_cost u64, then the OptionBool track_volume tag byte (0 = None). -/
def build_buy_instruction (fpa : Fpa) (user mint creator : Pubkey)
    (token_amount max_sol_lamports : Nat) : Instruction :=
  let bonding_curve := derive_bonding_curve fpa mint
  let associated_bonding_curve := derive_associated_bonding_curve fpa bonding_curve mint
  let user_ata := derive_user_ata fpa user mint
  let creator_vault := derive_creator_vault fpa creator
  let global_volume_acc := derive_global_volume_accumulator fpa
  let user_volume_acc := derive_user_volume_accumulator fpa user
  let fee_config := derive_fee_config fpa
  let discriminator : List Nat := [102, 6, 61, 18, 1, 218, 235, 234]
  let track_volume : Nat := 0
  { program_id := PUMP_PROGRAM_ID,
    data := discriminator ++ leBytes 8 token_amount ++ leBytes 8 max_sol_lamports ++
      [track_volume],
    accounts := [
      { pubkey := PUMP_GLOBAL, is_signer := false, is_writable := false },
      { pubkey := PUMP_FEE_RECIPIENT, is_signer := false, is_writable := true },
      { pubkey := mint, is_signer := false, is_writable := false },
      { pubkey := bonding_curve, is_signer := false, is_writable := true },
      { pubkey := associated_bonding_curve, is_signer := false, is_writable := true },
      { pubkey := user_ata, is_signer := false, is_writable := true },
      { pubkey := user, is_signer := true, is_writable := true },
      { pubkey := SYSTEM_PROGRAM_ID, is_signer := false, is_writable := false },
      { pubkey := TOKEN_PROGRAM_ID, is_signer := false, is_writable := false },
      { pubkey := creator_vault, is_signer := false, is_writable := true },
      { pubkey := PUMP_EVENT_AUTHORITY, is_signer := false, is_writable := false },
      { pubkey := PUMP_PROGRAM_ID, is_signer := false, is_writable := false },
      { pubkey := global_volume_acc, is_signer := false, is_writable := false },
      { pubkey := user_volume_acc, is_signer := false, is_writable := true },
      { pubkey := fee_config, is_signer := false, is_writable := false },
      { pubkey := FEE_PROGRAM_ID, is_signer := false, is_writable := false }] }

/-- Embeds `build_sell_instruction` (mya.py:363): discriminator, amount u64,
min_sol_output u64. -/
def build_sell_instruction (fpa : Fpa) (user mint creator : Pubkey)
    (token_amount min_sol_lamports : Nat) : Instruction :=
  let bonding_curve := derive_bonding_curve fpa mint
  let associated_bonding_curve := derive_associated_bonding_curve fpa bonding_curve mint
  let user_ata := derive_user_ata fpa user mint
  let creator_vault := derive_creator_vault fpa creator
  let fee_config := derive_fee_config fpa
  let discriminator : List Nat := [51, 230, 133, 164, 1, 127, 131, 173]
  { program_id := PUMP_PROGRAM_ID,
    data := discriminator ++ leBytes 8 token_amount ++ leBytes 8 min_sol_lamports,
    accounts := [
      { pubkey := PUMP_GLOBAL, is_signer := false, is_writable := false },
      { pubkey := PUMP_FEE_RECIPIENT, is_signer := false, is_writable := true },
      { pubkey := mint, is_signer := false, is_writable := false },
      { pubkey := bonding_curve, is_signer := false, is_writable := true },
      { pubkey := associated_bonding_curve, is_signer := false, is_writable := true },
      { pubkey := user_ata, is_signer := false, is_writable := true },
      { pubkey := user, is_signer := true, is_writable := true },
      { pubkey := SYSTEM_PROGRAM_ID, is_signer := false, is_writable := false },
      { pubkey := creator_vault, is_signer := false, is_writable := true },
      { pubkey := TOKEN_PROGRAM_ID, is_signer := false, is_writable := false },
      { pubkey := PUMP_EVENT_AUTHORITY, is_signer := false, is_writable := false },
      { pubkey := PUMP_PROGRAM_ID, is_signer := false, is_writable := false },
      { pubkey := fee_config, is_signer := false, is_writable := false },
      { pubkey := FEE_PROGRAM_ID, is_signer := false, is_writable := false }] }

/-! ## Payload decoding

Reference decoders for the wire format: `parse_string` reads a 4-byte
little-endian length prefix and that many content bytes; `parse_u64` reads
an 8-byte little-endian integer.  Each returns the decoded value and the
remaining bytes. -/

def parse_string : List Nat → Option (List Nat × List Nat)
  | b0 :: b1 :: b2 :: b3 :: rest =>
    let n := leVal [b0, b1, b2, b3]
    if n ≤ rest.length then some (rest.take n, rest.drop n) else none
  | _ => none

def parse_u64 : List Nat → Option (Nat × List Nat)
  | b0 :: b1 :: b2 :: b3 :: b4 :: b5 :: b6 :: b7 :: rest =>
    some (leVal [b0, b1, b2, b3, b4, b5, b6, b7], rest)
  | _ => none

theorem parse_string_encode (s rest : List Nat) (h : s.length < 2 ^ 32) :
    parse_string (encode_string s ++ rest) = some (s, rest) := by
  have h4 : s.length < 256 ^ 4 := by
    rw [show (256 : Nat) ^ 4 = 2 ^ 32 by norm_num]
    exact h
  have hle : leVal (leBytes 4 s.length) = s.length := leVal_leBytes 4 s.length h4
  show parse_string ((leBytes 4 s.length ++ s) ++ rest) = some (s, rest)
  have hshape : leBytes 4 s.length =
      [s.length % 256, s.length / 256 % 256, s.length / 256 / 256 % 256,
       s.length / 256 / 256 / 256 % 256] := rfl
  rw [hshape] at hle
  rw [hshape]
  simp only [List.cons_append, List.nil_append, List.append_assoc, parse_string]
  rw [hle, if_pos (by simp)]
  rw [List.take_left, List.drop_left]

theorem parse_u64_leBytes (n : Nat) (rest : List Nat) (h : n < 2 ^ 64) :
    parse_u64 (leBytes 8 n ++ rest) = some (n, rest) := by
  have h8 : n < 256 ^ 8 := by
    rw [show (256 : Nat) ^ 8 = 2 ^ 64 by norm_num]
    exact h
  have hle : leVal (leBytes 8 n) = n := leVal_leBytes 8 n h8
  have hshape : leBytes 8 n =
      [n % 256, n / 256 % 256, n / 256 / 256 % 256, n / 256 / 256 / 256 % 256,
       n / 256 / 256 / 256 / 256 % 256, n / 256 / 256 / 256 / 256 / 256 % 256,
       n / 256 / 256 / 256 / 256 / 256 / 256 % 256,
       n / 256 / 256 / 256 / 256 / 256 / 256 / 256 % 256] := rfl
  rw [hshape] at hle
  rw [hshape]
  simp only [List.cons_append, List.nil_append, parse_u64]
  rw [hle]

/-- C6: the data field of the buy instruction is exactly 25 bytes: the 8-byte
buy discriminator, the token amount as a little-endian u64, the max SOL cost
as a little-endian u64, and the single tag byte 0 for the absent optional
track-volume boolean; the two little-endian fields decode back to the
original u64 values. -/
theorem claim_C6_buy_instruction_data (fpa : Fpa) (user mint creator : Pubkey)
    (token_amount max_sol_lamports : Nat)
    (ha : token_amount < 2 ^ 64) (hm : max_sol_lamports < 2 ^ 64) :
    (build_buy_instruction fpa user mint creator token_amount max_sol_lamports).data =
      [102, 6, 61, 18, 1, 218, 235, 234] ++ leBytes 8 token_amount ++
        leBytes 8 max_sol_lamports ++ [0] ∧
    (build_buy_instruction fpa user mint creator token_amount max_sol_lamports).data.length
      = 25 ∧
    leVal (leBytes 8 token_amount) = token_amount ∧
    leVal (leBytes 8 max_sol_lamports) = max_sol_lamports := by
  refine ⟨rfl, ?_, ?_, ?_⟩
  · show ([102, 6, 61, 18, 1, 218, 235, 234] ++ leBytes 8 token_amount ++
      leBytes 8 max_sol_lamports ++ [0]).length = 25
    simp [length_leBytes]
  · exact leVal_leBytes 8 token_amount
      (by rw [show (256 : Nat) ^ 8 = 2 ^ 64 by norm_num]; exact ha)
  · exact leVal_leBytes 8 max_sol_lamports
      (by rw [show (256 : Nat) ^ 8 = 2 ^ 64 by norm_num]; exact hm)

def fpaZero : Fpa := fun _ _ => List.replicate 32 0

/-- Witness for C6 at the boundary values 1 and 2^64 − 1. -/
theorem claim_C6_buy_instruction_data_witness :
    1 < 2 ^ 64 ∧ 18446744073709551615 < 2 ^ 64 ∧
    ((build_buy_instruction fpaZero (List.replicate 32 1) (List.replicate 32 2)
        (List.replicate 32 1) 1 18446744073709551615).data =
      [102, 6, 61, 18, 1, 218, 235, 234] ++ leBytes 8 1 ++
        leBytes 8 18446744073709551615 ++ [0] ∧
     (build_buy_instruction fpaZero (List.replicate 32 1) (List.replicate 32 2)
        (List.replicate 32 1) 1 18446744073709551615).data.length = 25 ∧
     leVal (leBytes 8 1) = 1 ∧
     leVal (leBytes 8 18446744073709551615) = 18446744073709551615) :=
  ⟨by norm_num, by norm_num,
   claim_C6_buy_instruction_data fpaZero (List.replicate 32 1) (List.replicate 32 2)
     (List.replicate 32 1) 1 18446744073709551615 (by norm_num) (by norm_num)⟩

/-- C7: decoding an encoder-produced payload reproduces the original
arguments: in the create payload (after the 8-byte discriminator) the three
strings read back in order from their 4-byte little-endian length prefixes
and UTF-8 bytes, leaving the creator pubkey; and the little-endian u64
fields of the buy payload decode to the original integers. -/
theorem claim_C7_encode_decode_roundtrip (fpa : Fpa) (user mint creator : Pubkey)
    (name symbol uri : List Nat) (a m : Nat)
    (hname : name.length < 2 ^ 32) (hsym : symbol.length < 2 ^ 32)
    (huri : uri.length < 2 ^ 32) (ha : a < 2 ^ 64) (hm : m < 2 ^ 64) :
    parse_string ((build_create_instruction fpa user mint name symbol uri).data.drop 8) =
      some (name, encode_string symbol ++ (encode_string uri ++ user)) ∧
    parse_string (encode_string symbol ++ (encode_string uri ++ user)) =
      some (symbol, encode_string uri ++ user) ∧
    parse_string (encode_string uri ++ user) = some (uri, user) ∧
    parse_u64 ((build_buy_instruction fpa user mint creator a m).data.drop 8) =
      some (a, leBytes 8 m ++ [0]) ∧
    parse_u64 (leBytes 8 m ++ [0]) = some (m, [0]) := by
  refine ⟨?_, ?_, ?_, ?_, ?_⟩
  · have hdata : (build_create_instruction fpa user mint name symbol uri).data.drop 8 =
        encode_string name ++ (encode_string symbol ++ (encode_string uri ++ user)) := by
      show (([24, 30, 200, 40, 5, 28, 7, 119] ++ encode_string name ++
        encode_string symbol ++ encode_string uri ++ user).drop 8) = _
      simp [List.append_assoc]
    rw [hdata, parse_string_encode name _ hname]
  · rw [parse_string_encode symbol _ hsym]
  · rw [parse_string_encode uri _ huri]
  · have hdata : (build_buy_instruction fpa user mint creator a m).data.drop 8 =
        leBytes 8 a ++ (leBytes 8 m ++ [0]) := by
      show (([102, 6, 61, 18, 1, 218, 235, 234] ++ leBytes 8 a ++
        leBytes 8 m ++ [0]).drop 8) = _
      simp [List.append_assoc]
    rw [hdata, parse_u64_leBytes a _ ha]
  · rw [parse_u64_leBytes m _ hm]

/-- Witness for C7 with an empty string among the arguments and the u64
boundary values 0 and 2^64 − 1. -/
theorem claim_C7_encode_decode_roundtrip_witness :
    ([78, 97, 109, 101] : List Nat).length < 2 ^ 32 ∧
    ([] : List Nat).length < 2 ^ 32 ∧
    ([85] : List Nat).length < 2 ^ 32 ∧
    0 < 2 ^ 64 ∧ 18446744073709551615 < 2 ^ 64 ∧
    (parse_string ((build_create_instruction fpaZero (List.replicate 32 1)
        (List.replicate 32 2) [78, 97, 109, 101] [] [85]).data.drop 8) =
      some ([78, 97, 109, 101], encode_string [] ++ (encode_string [85] ++ List.replicate 32 1)) ∧
     parse_string (encode_string [] ++ (encode_string [85] ++ List.replicate 32 1)) =
      some ([], encode_string [85] ++ List.replicate 32 1) ∧
     parse_string (encode_string [85] ++ List.replicate 32 1) =
      some ([85], List.replicate 32 1) ∧
     parse_u64 ((build_buy_instruction fpaZero (List.replicate 32 1) (List.replicate 32 2)
        (List.replicate 32 1) 0 18446744073709551615).data.drop 8) =
      some (0, leBytes 8 18446744073709551615 ++ [0]) ∧
     parse_u64 (leBytes 8 18446744073709551615 ++ [0]) =
      some (18446744073709551615, [0])) :=
  ⟨by norm_num, by norm_num, by norm_num, by norm_num, by norm_num,
   claim_C7_encode_decode_roundtrip fpaZero (List.replicate 32 1) (List.replicate 32 2)
     (List.replicate 32 1) [78, 97, 109, 101] [] [85] 0 18446744073709551615
     (by norm_num) (by norm_num) (by norm_num) (by norm_num) (by norm_num)⟩

/-! ## TransactionAssembler: native launch-with-buy

`native_launch_with_buy` (mya.py:601) assembles the instruction list of the
launch transaction.  The model covers exactly that assembly (blockhash
fetch, message construction, signing and submission are external I/O).
Python floats (`initial_buy_sol`, the slippage arithmetic) are modelled as
exact rationals, and Python `int()` truncation as `Int.toNat ∘ Rat.floor`;
the two agree on the non-negative values that arise here, and the
instruction-order property under scrutiny does not depend on the numeric
values of the amounts. -/

def launch_sol_lamports (initial_buy_sol : ℚ) : Nat :=
  (initial_buy_sol * 1000000000).floor.toNat

def launch_min_tokens (initial_buy_sol : ℚ) (slippage_bps : Nat) : Nat :=
  (((calculate_tokens_for_sol (launch_sol_lamports initial_buy_sol) : ℚ) *
    ((10000 : ℚ) - (slippage_bps : ℚ)) / 10000).floor).toNat

def launch_max_sol_lamports (initial_buy_sol : ℚ) (slippage_bps : Nat) : Nat :=
  ((((launch_sol_lamports initial_buy_sol) : ℚ) *
    (1 + (slippage_bps : ℚ) / 10000)).floor).toNat

def native_launch_with_buy_instructions (fpa : Fpa) (user mint : Pubkey)
    (name symbol uri : List Nat) (initial_buy_sol : ℚ) (slippage_bps : Nat) :
    List Instruction :=
  let instructions : List Instruction := []
  let platform_fee_ix := build_transfer_instruction user SOUL_TREASURY SOUL_PLATFORM_FEE
  let instructions := instructions ++ [platform_fee_ix]
  let create_ix := build_create_instruction fpa user mint name symbol uri
  let instructions := instructions ++ [create_ix]
  if 0 < initial_buy_sol then
    let min_tokens := launch_min_tokens initial_buy_sol slippage_bps
    let max_sol := launch_max_sol_lamports initial_buy_sol slippage_bps
    let user_ata := derive_user_ata fpa user mint
    let create_ata_ix := build_create_ata_instruction user user_ata user mint
    let instructions := instructions ++ [create_ata_ix]
    let buy_ix := build_buy_instruction fpa user mint user min_tokens max_sol
    instructions ++ [buy_ix]
  else instructions

/-- C8: with initial_buy_sol > 0 the launch transaction's instruction list
is, in this exact order: the platform-fee transfer to the treasury, the
pump.fun create instruction, the create-associated-token-account
instruction, then the buy instruction — four instructions of four distinct
kinds (system transfer of the 0.01-SOL platform fee to SOUL_TREASURY,
pump.fun create, ATA-program create, pump.fun buy). -/
theorem claim_C8_launch_instruction_order (fpa : Fpa) (user mint : Pubkey)
    (name symbol uri : List Nat) (initial_buy_sol : ℚ) (slippage_bps : Nat)
    (hbuy : 0 < initial_buy_sol) :
    native_launch_with_buy_instructions fpa user mint name symbol uri
        initial_buy_sol slippage_bps =
      [build_transfer_instruction user SOUL_TREASURY SOUL_PLATFORM_FEE,
       build_create_instruction fpa user mint name symbol uri,
       build_create_ata_instruction user (derive_user_ata fpa user mint) user mint,
       build_buy_instruction fpa user mint user
         (launch_min_tokens initial_buy_sol slippage_bps)
         (launch_max_sol_lamports initial_buy_sol slippage_bps)] ∧
    (build_transfer_instruction user SOUL_TREASURY SOUL_PLATFORM_FEE).program_id =
      SYSTEM_PROGRAM_ID ∧
    (build_transfer_instruction user SOUL_TREASURY SOUL_PLATFORM_FEE).accounts.map
      AccountMeta.pubkey = [user, SOUL_TREASURY] ∧
    (build_transfer_instruction user SOUL_TREASURY SOUL_PLATFORM_FEE).data =
      leBytes 4 2 ++ leBytes 8 10000000 ∧
    (build_create_instruction fpa user mint name symbol uri).program_id =
      PUMP_PROGRAM_ID ∧
    (build_create_ata_instruction user (derive_user_ata fpa user mint) user mint).program_id
      = ASSOCIATED_TOKEN_PROGRAM_ID ∧
    (build_buy_instruction fpa user mint user
      (launch_min_tokens initial_buy_sol slippage_bps)
      (launch_max_sol_lamports initial_buy_sol slippage_bps)).program_id =
      PUMP_PROGRAM_ID ∧
    SYSTEM_PROGRAM_ID ≠ PUMP_PROGRAM_ID ∧
    PUMP_PROGRAM_ID ≠ ASSOCIATED_TOKEN_PROGRAM_ID ∧
    SYSTEM_PROGRAM_ID ≠ ASSOCIATED_TOKEN_PROGRAM_ID := by
  refine ⟨?_, rfl, rfl, rfl, rfl, rfl, rfl, by decide, by decide, by decide⟩
  unfold native_launch_with_buy_instructions
  rw [if_pos hbuy]
  simp

/-- Witness for C8 at concrete arguments with a positive initial buy. -/
theorem claim_C8_launch_instruction_order_witness :
    (0 : ℚ) < 1 ∧
    (native_launch_with_buy_instructions fpaZero (List.replicate 32 1)
        (List.replicate 32 2) [78] [84] [85] 1 500 =
      [build_transfer_instruction (List.replicate 32 1) SOUL_TREASURY SOUL_PLATFORM_FEE,
       build_create_instruction fpaZero (List.replicate 32 1) (List.replicate 32 2)
         [78] [84] [85],
       build_create_ata_instruction (List.replicate 32 1)
         (derive_user_ata fpaZero (List.replicate 32 1) (List.replicate 32 2))
         (List.replicate 32 1) (List.replicate 32 2),
       build_buy_instruction fpaZero (List.replicate 32 1) (List.replicate 32 2)
         (List.replicate 32 1) (launch_min_tokens 1 500)
         (launch_max_sol_lamports 1 500)] ∧
     (build_transfer_instruction (List.replicate 32 1) SOUL_TREASURY
        SOUL_PLATFORM_FEE).program_id = SYSTEM_PROGRAM_ID ∧
     (build_transfer_instruction (List.replicate 32 1) SOUL_TREASURY
        SOUL_PLATFORM_FEE).accounts.map AccountMeta.pubkey =
       [List.replicate 32 1, SOUL_TREASURY] ∧
     (build_transfer_instruction (List.replicate 32 1) SOUL_TREASURY
        SOUL_PLATFORM_FEE).data = leBytes 4 2 ++ leBytes 8 10000000 ∧
     (build_create_instruction fpaZero (List.replicate 32 1) (List.replicate 32 2)
        [78] [84] [85]).program_id = PUMP_PROGRAM_ID ∧
     (build_create_ata_instruction (List.replicate 32 1)
        (derive_user_ata fpaZero (List.replicate 32 1) (List.replicate 32 2))
        (List.replicate 32 1) (List.replicate 32 2)).program_id =
       ASSOCIATED_TOKEN_PROGRAM_ID ∧
     (build_buy_instruction fpaZero (List.replicate 32 1) (List.replicate 32 2)
        (List.replicate 32 1) (launch_min_tokens 1 500)
        (launch_max_sol_lamports 1 500)).program_id = PUMP_PROGRAM_ID ∧
     SYSTEM_PROGRAM_ID ≠ PUMP_PROGRAM_ID ∧
     PUMP_PROGRAM_ID ≠ ASSOCIATED_TOKEN_PROGRAM_ID ∧
     SYSTEM_PROGRAM_ID ≠ ASSOCIATED_TOKEN_PROGRAM_ID) :=
  ⟨by norm_num,
   claim_C8_launch_instruction_order fpaZero (List.replicate 32 1) (List.replicate 32 2)
     [78] [84] [85] 1 500 (by norm_num)⟩

/-! ## Base-58 codec

`b58_encode` (mya.py:1096) converts the byte string to a big-endian integer,
emits base-58 digits most-significant first via the divmod loop, prepends
one '1' per leading zero byte, and falls back to "1" for an empty digit
string.  `b58_decode` (mya.py:1110) rejects characters outside the alphabet,
folds the digit values, renders the integer back as its minimal big-endian
byte string (`int.to_bytes` with `(bit_length + 7) / 8` bytes), and prepends
one zero byte per leading '1'.  `natDigits b n` is the little-endian digit
string of `n` in base `b` without leading zeros, written with structural
fuel so that it evaluates inside the kernel; `natDigits_eq_digits` aligns
it with Mathlib's `Nat.digits`. -/

def toDigitsRevAux (b : Nat) : Nat → Nat → List Nat
  | 0, _ => []
  | _ + 1, 0 => []
  | fuel + 1, m + 1 => (m + 1) % b :: toDigitsRevAux b fuel ((m + 1) / b)

def natDigits (b n : Nat) : List Nat := toDigitsRevAux b n n

theorem toDigitsRevAux_eq (b : Nat) (hb : 1 < b) :
    ∀ fuel n, n ≤ fuel → toDigitsRevAux b fuel n = Nat.digits b n := by
  intro fuel
  induction fuel with
  | zero =>
    intro n hn
    have h0 : n = 0 := by omega
    subst h0
    simp [toDigitsRevAux]
  | succ fuel ih =>
    intro n hn
    match n with
    | 0 => simp [toDigitsRevAux]
    | m + 1 =>
      show (m + 1) % b :: toDigitsRevAux b fuel ((m + 1) / b) = _
      rw [ih ((m + 1) / b) (by
        have h := Nat.div_lt_self (Nat.succ_pos m) hb
        simp only [Nat.succ_eq_add_one] at h
        omega)]
      rw [Nat.digits_def' hb (Nat.succ_pos m)]

theorem natDigits_eq_digits (b n : Nat) (hb : 1 < b) : natDigits b n = Nat.digits b n :=
  toDigitsRevAux_eq b hb n n (Nat.le_refl n)

def B58_ALPHABET : List Char :=
  "123456789ABCDEFGHJKLMNPQRSTUVWXYZabcdefghijkmnopqrstuvwxyz".toList

def b58_encode (data : List Nat) : List Char :=
  let num := beVal 256 data
  let digitChars := (natDigits 58 num).reverse.map (fun d => B58_ALPHABET.getD d ' ')
  let result := List.replicate ((data.takeWhile (fun b => b == 0)).length) '1' ++ digitChars
  if result.isEmpty then ['1'] else result

def b58_decode (s : List Char) : Option (List Nat) :=
  if ∀ c ∈ s, c ∈ B58_ALPHABET then
    let num := s.foldl (fun acc c => acc * 58 + B58_ALPHABET.indexOf c) 0
    let result := (natDigits 256 num).reverse
    let pad := (s.takeWhile (fun c => c == '1')).length
    some (List.replicate pad 0 ++ result)
  else none

theorem takeWhile_beq_zero_replicate (l : List Nat) :
    l.takeWhile (fun b => b == 0) = List.replicate (l.takeWhile (fun b => b == 0)).length 0 := by
  induction l with
  | nil => rfl
  | cons a t ih =>
    by_cases h : a = 0
    · subst h
      simp only [List.takeWhile_cons, beq_self_eq_true, if_true, List.length_cons,
        List.replicate_succ, List.cons.injEq, true_and]
      exact ih
    · have : (a == 0) = false := by simpa using h
      simp [List.takeWhile_cons, this]

theorem beVal_replicate_zero_append (b z : Nat) (l : List Nat) :
    beVal b (List.replicate z 0 ++ l) = beVal b l := by
  induction z with
  | zero => rfl
  | succ z ih =>
    show List.foldl _ (0 * b + 0) _ = _
    rw [show 0 * b + 0 = 0 by ring]
    exact ih

theorem b58_foldl_replicate_ones (z : Nat) (l : List Char) :
    List.foldl (fun acc c => acc * 58 + B58_ALPHABET.indexOf c) 0
      (List.replicate z '1' ++ l) =
    List.foldl (fun acc c => acc * 58 + B58_ALPHABET.indexOf c) 0 l := by
  induction z with
  | zero => rfl
  | succ z ih =>
    show List.foldl _ (0 * 58 + B58_ALPHABET.indexOf '1') _ = _
    rw [show 0 * 58 + B58_ALPHABET.indexOf '1' = 0 by decide]
    exact ih

theorem takeWhile_ones_replicate_append (z : Nat) (c : Char) (hc : (c == '1') = false)
    (l : List Char) :
    ((List.replicate z '1' ++ (c :: l)).takeWhile (fun x => x == '1')).length = z := by
  induction z with
  | zero => simp [List.takeWhile_cons, hc]
  | succ z ih => simpa [List.replicate_succ, List.takeWhile_cons] using ih

theorem alphabet_getD_mem : ∀ d, d < 58 → B58_ALPHABET.getD d ' ' ∈ B58_ALPHABET := by
  decide

theorem alphabet_indexOf_getD :
    ∀ d, d < 58 → B58_ALPHABET.indexOf (B58_ALPHABET.getD d ' ') = d := by
  decide

theorem alphabet_getD_ne_one :
    ∀ d, d < 58 → d ≠ 0 → (B58_ALPHABET.getD d ' ' == '1') = false := by
  decide

theorem takeWhile_ones_replicate (z : Nat) :
    (List.replicate z '1').takeWhile (fun x => x == '1') = List.replicate z '1' := by
  induction z with
  | zero => rfl
  | succ z ih => simp [List.replicate_succ, List.takeWhile_cons, ih]

theorem dropWhile_head_false {α : Type} (p : α → Bool) (l : List α) (a : α) (t : List α)
    (h : l.dropWhile p = a :: t) : p a = false := by
  induction l with
  | nil => simp [List.dropWhile] at h
  | cons x xs ih =>
    rw [List.dropWhile_cons] at h
    by_cases hx : p x
    · rw [if_pos hx] at h
      exact ih h
    · rw [if_neg hx] at h
      injection h with h1 h2
      subst h1
      simpa using hx

theorem beVal_eq_ofDigits_rev (b : Nat) (L : List Nat) :
    beVal b L = Nat.ofDigits b L.reverse := by
  have h := beVal_eq_ofDigits b L.reverse
  rwa [List.reverse_reverse] at h

theorem isEmpty_append_cons {α : Type} (l : List α) (c : α) (t : List α) :
    (l ++ c :: t).isEmpty = false := by
  cases l <;> rfl

/-- C10: base-58 decode inverts base-58 encode on every non-empty byte
sequence, leading zero bytes included (they travel as leading '1'
characters). -/
theorem claim_C10_b58_roundtrip (data : List Nat) (hne : data ≠ [])
    (hbytes : ∀ b ∈ data, b < 256) :
    b58_decode (b58_encode data) = some data := by
  have hTD := List.takeWhile_append_dropWhile (fun b => b == 0) data
  have htrep := takeWhile_beq_zero_replicate data
  cases hr2 : data.dropWhile (fun b => b == 0) with
  | nil =>
    -- data consists solely of zero bytes
    have hdata : data =
        List.replicate ((data.takeWhile (fun b => b == 0)).length) 0 := by
      conv_lhs => rw [← hTD]
      rw [hr2, List.append_nil]
      exact htrep
    have hZpos : 0 < (data.takeWhile (fun b => b == 0)).length := by
      rcases Nat.eq_zero_or_pos (data.takeWhile (fun b => b == 0)).length with h | h
      · rw [h] at hdata
        simp at hdata
        exact absurd hdata hne
      · exact h
    have h0 : beVal 256 data = 0 := by
      conv_lhs => rw [hdata, ← List.append_nil
        (List.replicate ((data.takeWhile (fun b => b == 0)).length) 0)]
      rw [beVal_replicate_zero_append]
      rfl
    have hie : (List.replicate ((data.takeWhile (fun b => b == 0)).length) '1').isEmpty
        = false := by
      cases hZ : (data.takeWhile (fun b => b == 0)).length with
      | zero => omega
      | succ m => rfl
    have hnd : natDigits 58 0 = ([] : List Nat) := rfl
    have henc : b58_encode data =
        List.replicate ((data.takeWhile (fun b => b == 0)).length) '1' := by
      simp only [b58_encode, h0, hnd, List.reverse_nil, List.map_nil, List.append_nil, hie]
      simp
    rw [henc]
    simp only [b58_decode]
    rw [if_pos (by
      intro c hc
      rw [List.eq_of_mem_replicate hc]
      decide)]
    have hfold : List.foldl (fun acc c => acc * 58 + B58_ALPHABET.indexOf c) 0
        (List.replicate ((data.takeWhile (fun b => b == 0)).length) '1') = 0 := by
      conv_lhs => rw [← List.append_nil
        (List.replicate ((data.takeWhile (fun b => b == 0)).length) '1')]
      rw [b58_foldl_replicate_ones]
      rfl
    rw [hfold]
    have hnd256 : natDigits 256 0 = ([] : List Nat) := rfl
    rw [hnd256, takeWhile_ones_replicate, List.length_replicate]
    simp only [List.reverse_nil, List.append_nil]
    rw [← hdata]
  | cons rh rt =>
    -- data = leading zeros ++ (rh :: rt) with rh nonzero
    have hdata : data =
        List.replicate ((data.takeWhile (fun b => b == 0)).length) 0 ++ (rh :: rt) := by
      conv_lhs => rw [← hTD]
      rw [hr2, htrep, List.length_replicate]
    have hrh_beq : (rh == 0) = false := dropWhile_head_false _ data rh rt hr2
    have hrh : rh ≠ 0 := by simpa using hrh_beq
    have hrsub : ∀ b ∈ rh :: rt, b < 256 := by
      intro b hb
      apply hbytes
      have hsb := (List.dropWhile_sublist (fun b => b == 0) (l := data)).subset
      rw [hr2] at hsb
      exact hsb hb
    have hnum : beVal 256 data = Nat.ofDigits 256 ((rh :: rt).reverse) := by
      conv_lhs => rw [hdata]
      rw [beVal_replicate_zero_append, beVal_eq_ofDigits_rev]
    have hnum_pos : beVal 256 data ≠ 0 := by
      rw [hnum, List.reverse_cons, Nat.ofDigits_append, Nat.ofDigits_singleton]
      have h1 : 0 < 256 ^ rt.reverse.length * rh :=
        Nat.mul_pos (Nat.pos_pow_of_pos _ (by norm_num)) (Nat.pos_of_ne_zero hrh)
      omega
    have hd58 : natDigits 58 (beVal 256 data) = Nat.digits 58 (beVal 256 data) :=
      natDigits_eq_digits _ _ (by norm_num)
    have hd58ne : Nat.digits 58 (beVal 256 data) ≠ [] :=
      Nat.digits_ne_nil_iff_ne_zero.mpr hnum_pos
    obtain ⟨d0, ds, hds⟩ : ∃ d0 ds, (Nat.digits 58 (beVal 256 data)).reverse = d0 :: ds := by
      cases hrev : (Nat.digits 58 (beVal 256 data)).reverse with
      | nil => exact absurd (List.reverse_eq_nil_iff.mp hrev) hd58ne
      | cons a l => exact ⟨a, l, rfl⟩
    have hd0mem : d0 ∈ Nat.digits 58 (beVal 256 data) := by
      rw [← List.mem_reverse, hds]
      exact List.mem_cons_self d0 ds
    have hd0lt : d0 < 58 := Nat.digits_lt_base (by norm_num) hd0mem
    have hd0ne : d0 ≠ 0 := by
      have h1 : (Nat.digits 58 (beVal 256 data)).getLast? = some d0 := by
        rw [← List.head?_reverse, hds]
        rfl
      have h2 : (Nat.digits 58 (beVal 256 data)).getLast? =
          some ((Nat.digits 58 (beVal 256 data)).getLast hd58ne) :=
        List.getLast?_eq_getLast _ hd58ne
      have h3 := Nat.getLast_digit_ne_zero 58 hnum_pos
      intro h0
      apply h3
      rw [← Option.some.injEq, ← h2, h1, h0]
    have hmem58 : ∀ d ∈ (Nat.digits 58 (beVal 256 data)).reverse, d < 58 := by
      intro d hd
      exact Nat.digits_lt_base (by norm_num) (List.mem_reverse.mp hd)
    have henc : b58_encode data =
        List.replicate ((data.takeWhile (fun b => b == 0)).length) '1' ++
          (Nat.digits 58 (beVal 256 data)).reverse.map (fun d => B58_ALPHABET.getD d ' ') := by
      simp only [b58_encode, hd58, hds, List.map_cons, isEmpty_append_cons]
      simp
    rw [henc]
    simp only [b58_decode]
    rw [if_pos (by
      intro c hc
      rcases List.mem_append.mp hc with hc | hc
      · rw [List.eq_of_mem_replicate hc]
        decide
      · obtain ⟨d, hd, rfl⟩ := List.mem_map.mp hc
        exact alphabet_getD_mem d (hmem58 d hd))]
    have hfold : List.foldl (fun acc c => acc * 58 + B58_ALPHABET.indexOf c) 0
        (List.replicate ((data.takeWhile (fun b => b == 0)).length) '1' ++
          (Nat.digits 58 (beVal 256 data)).reverse.map
            (fun d => B58_ALPHABET.getD d ' ')) = beVal 256 data := by
      rw [b58_foldl_replicate_ones, List.foldl_map]
      rw [List.foldl_ext _ (fun acc d => acc * 58 + d) 0 (by
        intro a d hd
        rw [alphabet_indexOf_getD d (hmem58 d hd)])]
      show beVal 58 (Nat.digits 58 (beVal 256 data)).reverse = _
      rw [beVal_eq_ofDigits (58 : Nat) (Nat.digits 58 (beVal 256 data)),
        Nat.ofDigits_digits]
    rw [hfold]
    have hres : (natDigits 256 (beVal 256 data)).reverse = rh :: rt := by
      rw [natDigits_eq_digits _ _ (by norm_num), hnum,
        Nat.digits_ofDigits 256 (by norm_num) ((rh :: rt).reverse)
          (by intro l hl; exact hrsub l (List.mem_reverse.mp hl))
          (by
            intro h
            have h1 : (rh :: rt).reverse.getLast? = some rh := by
              rw [← List.head?_reverse, List.reverse_reverse]
              rfl
            have h2 := List.getLast?_eq_getLast _ h
            rw [h1] at h2
            rw [← Option.some.inj h2]
            exact hrh),
        List.reverse_reverse]
    have hpad : ((List.replicate ((data.takeWhile (fun b => b == 0)).length) '1' ++
        (Nat.digits 58 (beVal 256 data)).reverse.map
          (fun d => B58_ALPHABET.getD d ' ')).takeWhile (fun c => c == '1')).length =
        (data.takeWhile (fun b => b == 0)).length := by
      rw [hds, List.map_cons]
      exact takeWhile_ones_replicate_append _ _
        (alphabet_getD_ne_one d0 hd0lt hd0ne) _
    rw [hres, hpad, ← hdata]

/-- Witness for C10 on a concrete byte string with a leading zero byte. -/
theorem claim_C10_b58_roundtrip_witness :
    ([0, 255, 1] : List Nat) ≠ [] ∧ (∀ b ∈ ([0, 255, 1] : List Nat), b < 256) ∧
    b58_decode (b58_encode [0, 255, 1]) = some [0, 255, 1] :=
  ⟨by decide, by decide, claim_C10_b58_roundtrip [0, 255, 1] (by decide) (by decide)⟩
